import Mathlib

/-!
Verification development for the XML-to-iCalendar conversion engine
(`mxl_to_ics_impl.py`, `__init__.py`).  Strings are modelled as lists of
characters; the Python `datetime` values are modelled by the `PyDateTime`
structure; fallible code returns `Except` with the raised message.
-/

set_option autoImplicit false

set_option maxRecDepth 4096

deriving instance DecidableEq for Except

/-- Character strings are modelled as lists of characters. -/
abbrev Str : Type := List Char

/-- Coerce a Lean string literal to the character-list representation. -/
def str (s : String) : Str := s.data

/-- Test whether the first list starts with the second (argument order: string, pattern). -/
def startsWith : Str → Str → Bool
  | _, [] => true
  | [], _ :: _ => false
  | c :: cs, p :: ps => c = p && startsWith cs ps

/-- Test whether the first list ends with the second. -/
def endsWith (s p : Str) : Bool := startsWith s.reverse p.reverse

/-- ASCII digit test (the character class 0-9). -/
def isDigit (c : Char) : Bool := 48 ≤ c.toNat && c.toNat ≤ 57

/-- Numeric value of an ASCII digit character. -/
def charVal (c : Char) : Nat := c.toNat - 48

/-- The ASCII digit character of a value below ten. -/
def digitChar : Nat → Char
  | 0 => '0'
  | 1 => '1'
  | 2 => '2'
  | 3 => '3'
  | 4 => '4'
  | 5 => '5'
  | 6 => '6'
  | 7 => '7'
  | 8 => '8'
  | 9 => '9'
  | _ => '0'

/-- Value of a two-digit group. -/
def toN2 (a b : Char) : Nat := charVal a * 10 + charVal b

/-- Value of a four-digit group. -/
def toN4 (a b c d : Char) : Nat :=
  charVal a * 1000 + charVal b * 100 + charVal c * 10 + charVal d

/-- A timezone-aware UTC `datetime.datetime` value as produced by the engine
(the zone is always UTC, so it is not represented). -/
structure PyDateTime where
  year : Nat
  month : Nat
  day : Nat
  hour : Nat
  minute : Nat
  second : Nat
  micro : Nat

deriving DecidableEq, Repr

/-- Gregorian leap-year rule used by `datetime`. -/
def isLeap (y : Nat) : Bool := y % 4 == 0 && (!(y % 100 == 0) || y % 400 == 0)

/-- Number of days of a month, as validated by `datetime`. -/
def daysInMonth (y m : Nat) : Nat :=
  if m = 2 then (if isLeap y then 29 else 28)
  else if m = 4 ∨ m = 6 ∨ m = 9 ∨ m = 11 then 30
  else 31

/-- Character read of the C parser: the character at an index, the
terminating NUL for any index past the end. -/
def atD (b : Str) (i : Nat) : Char := b.getD i '\x00'

/-- Strict two-digit read at a position (`parse_digit_pair` of
`_datetimemodule.c`). -/
def pairAt (b : Str) (i : Nat) : Option Nat :=
  if isDigit (atD b i) && isDigit (atD b (i + 1)) then
    some (toN2 (atD b i) (atD b (i + 1)))
  else none

/-- Scale table (`correction`) of `parse_hh_mm_ss_ff` for a fractional part
of fewer than six digits. -/
def fracCorr : Nat → Nat
  | 1 => 100000
  | 2 => 10000
  | 3 => 1000
  | 4 => 100
  | 5 => 10
  | _ => 1

/-- Fixed count of ASCII digits read left to right into an accumulator
(`parse_digit_string`). -/
def readDigitsAcc (b : Str) (acc p : Nat) : Nat → Option Nat
  | 0 => some acc
  | n + 1 =>
    if isDigit (atD b p) then readDigitsAcc b (acc * 10 + charVal (atD b p)) (p + 1) n
    else none

/-- First index at or after `q` holding a non-digit: the loop of
`parse_hh_mm_ss_ff` that skips fraction digits beyond the sixth.  The fuel
is initialised past the string length, where the NUL stops the scan. -/
def skipDigits (b : Str) (q : Nat) : Nat → Nat
  | 0 => q
  | n + 1 => if isDigit (atD b q) then skipDigits b (q + 1) n else q

/-- Fraction tail of `parse_hh_mm_ss_ff`, reached after a consumed
separator or after the basic-format seconds: up to six digits are scaled to
microseconds, further digits are skipped.  The flag records whether the
parse stopped on the terminating NUL, distinguishing the clean return from
the stop on a foreign character. -/
def hms_ff_frac (b : Str) (pend p h m s : Nat) : Option (Nat × Nat × Nat × Nat × Bool) :=
  let lr := pend - p
  let tp := min lr 6
  match readDigitsAcc b 0 p tp with
  | none => none
  | some us0 =>
    let us := if lr ≤ 5 then us0 * fracCorr tp else us0
    some (h, m, s, us, atD b (skipDigits b (p + tp) (b.length + 1)) == '\x00')

/-- Seconds step of the component loop of `parse_hh_mm_ss_ff`: a colon (in
separated mode) and the dot and comma all land in the fraction tail, and in
basic mode any further character starts the fraction scan two characters
on, mirroring the C control flow. -/
def hms_ff_sec (b : Str) (pend p : Nat) (hasSep : Bool) (h m : Nat) :
    Option (Nat × Nat × Nat × Nat × Bool) :=
  match pairAt b p with
  | none => none
  | some s =>
    let c := atD b (p + 2)
    if pend ≤ p + 3 then some (h, m, s, 0, c == '\x00')
    else if c = ':' then
      if hasSep then hms_ff_frac b pend (p + 3) h m s else hms_ff_frac b pend (p + 2) h m s
    else if c = '.' ∨ c = ',' then hms_ff_frac b pend (p + 3) h m s
    else if hasSep then none
    else hms_ff_frac b pend (p + 2) h m s

/-- Minutes step of the component loop of `parse_hh_mm_ss_ff`. -/
def hms_ff_min (b : Str) (pend p : Nat) (hasSep : Bool) (h : Nat) :
    Option (Nat × Nat × Nat × Nat × Bool) :=
  match pairAt b p with
  | none => none
  | some m =>
    let c := atD b (p + 2)
    if pend ≤ p + 3 then some (h, m, 0, 0, c == '\x00')
    else if c = ':' then
      if hasSep then hms_ff_sec b pend (p + 3) hasSep h m
      else hms_ff_sec b pend (p + 2) hasSep h m
    else if c = '.' ∨ c = ',' then hms_ff_frac b pend (p + 3) h m 0
    else if hasSep then none
    else hms_ff_sec b pend (p + 2) hasSep h m

/-- Hours step of `parse_hh_mm_ss_ff` of `_datetimemodule.c` (Python 3.11):
parses the window `[p, pend)` of `b`, looking through the right boundary at
the underlying characters exactly where the C code does.  The separator
mode is fixed by the character after the hour pair. -/
def hms_ff_hour (b : Str) (pend p : Nat) : Option (Nat × Nat × Nat × Nat × Bool) :=
  match pairAt b p with
  | none => none
  | some h =>
    let c := atD b (p + 2)
    if pend ≤ p + 3 then some (h, 0, 0, 0, c == '\x00')
    else if c = ':' then hms_ff_min b pend (p + 3) true h
    else if c = '.' ∨ c = ',' then hms_ff_frac b pend (p + 3) h 0 0
    else hms_ff_min b pend (p + 2) false h

/-- Index of the first `+`, `-` or `Z` in a time string, or its length (the
timezone scan of `parse_isoformat_time`). -/
def tzScan : Str → Nat
  | [] => 0
  | c :: rest => if c = '+' ∨ c = '-' ∨ c = 'Z' then 0 else tzScan rest + 1

/-- Model of `parse_isoformat_time` of `_datetimemodule.c` (Python 3.11),
reduced to the naive clock fields the engine keeps.  The part before the
first sign or `Z` is parsed by the pair grammar, and an incomplete stop is
only rejected when no timezone part follows; a `Z` must be followed by the
terminating NUL; a signed offset is parsed by the same pair grammar, must
consume its whole tail and stay strictly below twenty-four hours, and is
then discarded, because the engine replaces the zone with UTC. -/
def parse_isoformat_time (t : Str) : Option (Nat × Nat × Nat × Nat) :=
  match hms_ff_hour t (tzScan t) 0 with
  | none => none
  | some (h, m, s, us, complete) =>
    if t.length ≤ tzScan t then if complete then some (h, m, s, us) else none
    else if atD t (tzScan t) = 'Z' then
      if atD t (tzScan t + 1) = '\x00' then some (h, m, s, us) else none
    else
      match hms_ff_hour t t.length (tzScan t + 1) with
      | none => none
      | some (th, tm, ts, tus, complete2) =>
        if complete2 ∧ (th * 3600 + tm * 60 + ts) * 1000000 + tus < 86400000000 then
          some (h, m, s, us)
        else none

/-- Digit run used by the compact week-date arm of the separator finder. -/
def wScan (s : Str) (idx : Nat) : Nat → Nat
  | 0 => idx
  | n + 1 => if idx < s.length ∧ isDigit (atD s idx) then wScan s (idx + 1) n else idx

/-- Model of `find_isoformat_datetime_separator` (Python 3.11): the
position of the date-time separator, decided by the length and the
characters at positions 4, 5, 8 and 10; `none` is the `YYYY-Www-` length-9
case the C code flags with a negative position, whose date parse then
always fails on the terminating NUL. -/
def findSep (s : Str) : Option Nat :=
  if s.length = 7 then some 7
  else if atD s 4 = '-' then
    if atD s 5 = 'W' then
      if s.length = 8 then some 8
      else if atD s 8 = '-' then
        if s.length = 9 then none
        else if s.length = 10 then some 10
        else if isDigit (atD s 10) then some 8
        else some 10
      else some 8
    else some 10
  else if atD s 4 = 'W' then
    if wScan s 7 (s.length + 1) ≤ 8 then some (wScan s 7 (s.length + 1))
    else some (7 + wScan s 7 (s.length + 1) % 2)
  else some 8

/-- Days in all years preceding year `y` in the proleptic Gregorian
calendar (`_days_before_year`). -/
def days_before_year (y : Nat) : Nat :=
  (y - 1) * 365 + (y - 1) / 4 - (y - 1) / 100 + (y - 1) / 400

/-- Ordinal of January 1 of year `y` (`_ymd2ord(y, 1, 1)`). -/
def jan1ord (y : Nat) : Nat := days_before_year y + 1

/-- Days before the start of a month in a non-leap year (the
`_days_before_month` table). -/
def daysBeforeMonthT : Nat → Nat
  | 1 => 0
  | 2 => 31
  | 3 => 59
  | 4 => 90
  | 5 => 120
  | 6 => 151
  | 7 => 181
  | 8 => 212
  | 9 => 243
  | 10 => 273
  | 11 => 304
  | _ => 334

/-- Month lengths of a non-leap year (the `_days_in_month` table). -/
def daysInMonthT : Nat → Nat
  | 2 => 28
  | 4 => 30
  | 6 => 30
  | 9 => 30
  | 11 => 30
  | _ => 31

/-- Ordinal-to-calendar conversion (`_ord2ymd`): 400, 100, 4 and 1-year
cycles, then the month estimate `(n + 50) >> 5`, corrected downward at most
once with the cycle-derived leap flag. -/
def ord_to_ymd (n : Nat) : Nat × Nat × Nat :=
  let n0 := n - 1
  let n400 := n0 / 146097
  let r1 := n0 % 146097
  let n100 := r1 / 36524
  let r2 := r1 % 36524
  let n4 := r2 / 1461
  let r3 := r2 % 1461
  let n1 := r3 / 365
  let r := r3 % 365
  let year := n400 * 400 + n100 * 100 + n4 * 4 + n1 + 1
  if n1 = 4 ∨ n100 = 4 then (year - 1, 12, 31)
  else
    let leap := n1 = 3 ∧ (n4 ≠ 24 ∨ n100 = 3)
    let month := (r + 50) / 32
    let preceding := daysBeforeMonthT month + (if 2 < month ∧ leap then 1 else 0)
    if r < preceding then
      let preceding2 := preceding - (daysInMonthT (month - 1) +
        (if month - 1 = 2 ∧ leap then 1 else 0))
      (year, month - 1, r - preceding2 + 1)
    else (year, month, r - preceding + 1)

/-- Ordinal of the Monday starting ISO week 1 of year `y`
(`iso_week1_monday`). -/
def isoweek1monday (y : Nat) : Nat :=
  let firstday := jan1ord y
  let firstweekday := (firstday + 6) % 7
  if firstweekday > 3 then firstday - firstweekday + 7 else firstday - firstweekday

/-- Validity of ISO week 53 in a year (`iso_to_ymd`): January 1 falls on a
Thursday, or on a Wednesday of a leap year. -/
def week53ok (y : Nat) : Bool :=
  jan1ord y % 7 == 4 || (jan1ord y % 7 == 3 && isLeap y)

/-- Conversion of an ISO year-week-day triple to a calendar date
(`iso_to_ymd`): week 1 to 52, or 53 when valid, day 1 to 7.  Year zero, the
only below-`MINYEAR` value a four-digit year can take, always yields an
invalid constructor call in the C code and is modelled as direct failure. -/
def iso_to_ymd (y w d : Nat) : Option (Nat × Nat × Nat) :=
  if y = 0 then none
  else if (1 ≤ w ∧ w ≤ 52) ∨ (w = 53 ∧ week53ok y) then
    if 1 ≤ d ∧ d ≤ 7 then some (ord_to_ymd (isoweek1monday y + (w - 1) * 7 + (d - 1)))
    else none
  else none

/-- Four-digit year read of `parse_isoformat_date`. -/
def read4y (s : Str) : Option Nat :=
  if isDigit (atD s 0) && isDigit (atD s 1) && isDigit (atD s 2) && isDigit (atD s 3) then
    some (toN4 (atD s 0) (atD s 1) (atD s 2) (atD s 3))
  else none

/-- Model of `parse_isoformat_date` of `_datetimemodule.c` (Python 3.11): a
four-digit year, an optional dash fixing the separator mode, then either a
`W` week form (two-digit week, and a day digit exactly when the separator
position `loc` leaves room, preceded by a dash in separated mode) or a
two-digit month and a two-digit day.  Reads run over the underlying string;
the window end `loc` only decides whether a week day is present. -/
def parse_isoformat_date (s : Str) (loc : Nat) : Option (Nat × Nat × Nat) :=
  match read4y s with
  | none => none
  | some y =>
    let base := if atD s 4 = '-' then 5 else 4
    if atD s base = 'W' then
      match pairAt s (base + 1) with
      | none => none
      | some w =>
        if loc ≤ base + 3 then iso_to_ymd y w 1
        else if atD s 4 = '-' then
          if atD s (base + 3) = '-' then
            if isDigit (atD s (base + 4)) then iso_to_ymd y w (charVal (atD s (base + 4)))
            else none
          else none
        else
          if isDigit (atD s (base + 3)) then iso_to_ymd y w (charVal (atD s (base + 3)))
          else none
    else
      match pairAt s base with
      | none => none
      | some mo =>
        if atD s 4 = '-' then
          if atD s (base + 2) = '-' then
            match pairAt s (base + 3) with
            | none => none
            | some d => some (y, mo, d)
          else none
        else
          match pairAt s (base + 2) with
          | none => none
          | some d => some (y, mo, d)

/-- Range checks of the `datetime` constructor on the parsed fields. -/
def datetime_check (y mo d h mi se us : Nat) : Option PyDateTime :=
  if 1 ≤ y ∧ y ≤ 9999 ∧ 1 ≤ mo ∧ mo ≤ 12 ∧ 1 ≤ d ∧ d ≤ daysInMonth y mo
      ∧ h ≤ 23 ∧ mi ≤ 59 ∧ se ≤ 59 then
    some ⟨y, mo, d, h, mi, se, us⟩
  else none

/-- Model of `datetime.fromisoformat` of CPython 3.11 (the version the
engine targets), reduced to the naive fields the engine keeps: a minimum
length of seven, the separator finder, the date parse in calendar or ISO
week form, an optional time part whose timezone offset is validated and
discarded, and the constructor range checks. -/
def fromiso (s : Str) : Option PyDateTime :=
  if s.length < 7 then none
  else
    match findSep s with
    | none => none
    | some loc =>
      match parse_isoformat_date s loc with
      | none => none
      | some (y, mo, d) =>
        if s.length ≤ loc then datetime_check y mo d 0 0 0 0
        else
          match parse_isoformat_time (s.drop (loc + 1)) with
          | none => none
          | some (h, mi, se, us) => datetime_check y mo d h mi se us

/-- Characters admitted by the character class of the wrapper pattern
`[0-9\-:T\.]`. -/
def classChar (c : Char) : Bool :=
  isDigit c || c = '-' || c = ':' || c = 'T' || c = '.'

/-- The fixed fourteen-character opening text of the wrapper pattern. -/
def wrapMark : Str := str "\x7butcdatetime:U"

/-- Modelled `re.search` of the wrapper pattern: the leftmost position where
the opening text is followed by a nonempty run of class characters and a
closing brace; returns the captured run. -/
def findWrapper : Str → Option Str
  | [] => none
  | c :: cs =>
    if startsWith (c :: cs) wrapMark then
      let body := List.drop 14 (c :: cs)
      let run := body.takeWhile classChar
      let rest := body.dropWhile classChar
      if run ≠ [] ∧ rest.head? = some '\x7d' then some run
      else findWrapper cs
    else findWrapper cs

/-- Python `iso[:-4] if iso.endswith(".000") else iso`. -/
def strip000 (s : Str) : Str :=
  if endsWith s (str ".000") then s.take (s.length - 4) else s

/-- Python `s.replace("Z", "")`: remove every `Z`. -/
def removeZ (s : Str) : Str := s.filter (fun c => c != 'Z')

/-- Message of the `ValueError` raised by `datetime.fromisoformat`. -/
def invalidIsoMsg (s : Str) : Str :=
  str "Invalid isoformat string: '" ++ s ++ str "'"

/-- Message of the `ValueError` raised by `parse_utcdatetime` when neither
format parses. -/
def unrecMsg (s : Str) : Str := str "Unrecognized datetime format: " ++ s

/-- Core of `parse_utcdatetime` in `mxl_to_ics_impl.py` on a non-`None`
string: try the wrapper pattern, trim an exact `.000` suffix, and parse; if
the wrapper does not match, fall back to plain ISO with literal `Z` removed,
raising `Unrecognized datetime format` when the fallback fails.  A failure of
the inner ISO text of a matched wrapper propagates the `fromisoformat` error. -/
def parse1 (s : Str) : Except Str PyDateTime :=
  match findWrapper s with
  | none =>
    match fromiso (removeZ s) with
    | some dt => .ok dt
    | none => .error (unrecMsg s)
  | some iso =>
    match fromiso (strip000 iso) with
    | some dt => .ok dt
    | none => .error (invalidIsoMsg (strip000 iso))

/-- `parse_utcdatetime` of `mxl_to_ics_impl.py`: `None` maps to `None`. -/
def parse_utcdatetime : Option Str → Except Str (Option PyDateTime)
  | none => .ok none
  | some s => (parse1 s).map some

/-- Core of `parse_utcdatetime` in `__init__.py`: same success behaviour, but
the fallback failure propagates the raw `fromisoformat` error. -/
def parse1init (s : Str) : Except Str PyDateTime :=
  match findWrapper s with
  | none =>
    match fromiso (removeZ s) with
    | some dt => .ok dt
    | none => .error (invalidIsoMsg (removeZ s))
  | some iso =>
    match fromiso (strip000 iso) with
    | some dt => .ok dt
    | none => .error (invalidIsoMsg (strip000 iso))

/-- Zero-padded two-digit decimal rendering (strftime `%m`, `%d`, `%H`, `%M`, `%S`). -/
def pad2 (n : Nat) : Str := [digitChar (n / 10), digitChar (n % 10)]

/-- Zero-padded four-digit decimal rendering (strftime `%Y`, years up to 9999). -/
def pad4 (n : Nat) : Str :=
  [digitChar (n / 1000), digitChar (n / 100 % 10), digitChar (n / 10 % 10), digitChar (n % 10)]

/-- `dt_to_ics`: strftime `%Y%m%dT%H%M%SZ` (microseconds are not printed). -/
def dt_to_ics (dt : PyDateTime) : Str :=
  pad4 dt.year ++ pad2 dt.month ++ pad2 dt.day ++ ['T'] ++
    pad2 dt.hour ++ pad2 dt.minute ++ pad2 dt.second ++ ['Z']

/-- strftime `%Y%m%d` used for all-day date rendering. -/
def dtDate (dt : PyDateTime) : Str := pad4 dt.year ++ pad2 dt.month ++ pad2 dt.day

/-- Drop the microsecond component. -/
def zeroMicro (dt : PyDateTime) : PyDateTime :=
  { dt with micro := 0 }

/-- Field ranges guaranteed by a successful `fromiso` parse. -/
def validDT (dt : PyDateTime) : Prop :=
  1 ≤ dt.year ∧ dt.year ≤ 9999 ∧ 1 ≤ dt.month ∧ dt.month ≤ 12 ∧
    1 ≤ dt.day ∧ dt.day ≤ daysInMonth dt.year dt.month ∧
    dt.hour ≤ 23 ∧ dt.minute ≤ 59 ∧ dt.second ≤ 59

/-- Lowercase an ASCII letter (model of `str.lower` on the characters that
occur in the feed; characters outside A-Z are unchanged). -/
def lowerChar (c : Char) : Char :=
  if c = 'A' then 'a' else if c = 'B' then 'b' else if c = 'C' then 'c'
  else if c = 'D' then 'd' else if c = 'E' then 'e' else if c = 'F' then 'f'
  else if c = 'G' then 'g' else if c = 'H' then 'h' else if c = 'I' then 'i'
  else if c = 'J' then 'j' else if c = 'K' then 'k' else if c = 'L' then 'l'
  else if c = 'M' then 'm' else if c = 'N' then 'n' else if c = 'O' then 'o'
  else if c = 'P' then 'p' else if c = 'Q' then 'q' else if c = 'R' then 'r'
  else if c = 'S' then 's' else if c = 'T' then 't' else if c = 'U' then 'u'
  else if c = 'V' then 'v' else if c = 'W' then 'w' else if c = 'X' then 'x'
  else if c = 'Y' then 'y' else if c = 'Z' then 'z' else c

/-- Uppercase an ASCII letter (used by `str.capitalize` on the first character). -/
def upperChar (c : Char) : Char :=
  if c = 'a' then 'A' else if c = 'b' then 'B' else if c = 'c' then 'C'
  else if c = 'd' then 'D' else if c = 'e' then 'E' else if c = 'f' then 'F'
  else if c = 'g' then 'G' else if c = 'h' then 'H' else if c = 'i' then 'I'
  else if c = 'j' then 'J' else if c = 'k' then 'K' else if c = 'l' then 'L'
  else if c = 'm' then 'M' else if c = 'n' then 'N' else if c = 'o' then 'O'
  else if c = 'p' then 'P' else if c = 'q' then 'Q' else if c = 'r' then 'R'
  else if c = 's' then 'S' else if c = 't' then 'T' else if c = 'u' then 'U'
  else if c = 'v' then 'V' else if c = 'w' then 'W' else if c = 'x' then 'X'
  else if c = 'y' then 'Y' else if c = 'z' then 'Z' else c

/-- Python `str.lower` on ASCII text. -/
def asciiLower (s : Str) : Str := s.map lowerChar

/-- Python `str.capitalize`: first character uppercased, rest lowercased. -/
def pyCapitalize : Str → Str
  | [] => []
  | c :: cs => upperChar c :: cs.map lowerChar

/-- Python whitespace characters stripped by `str.strip`. -/
def isSpace (c : Char) : Bool :=
  c = ' ' || c = '\t' || c = '\n' || c = '\r' || c = '\x0b' || c = '\x0c'

/-- Python `str.strip()`. -/
def pyStrip (s : Str) : Str :=
  ((s.dropWhile isSpace).reverse.dropWhile isSpace).reverse

/-- Fuel-driven body of `replaceNE`; the fuel is initialised to the string
length and one unit is spent per character consumed, so it never runs out. -/
def replaceF (p : Char) (ps rep : Str) : Nat → Str → Str
  | _, [] => []
  | 0, s => s
  | f + 1, c :: cs =>
    if c = p ∧ startsWith cs ps then rep ++ replaceF p ps rep f (cs.drop ps.length)
    else c :: replaceF p ps rep f cs

/-- Python `str.replace` with a nonempty pattern `p :: ps`: non-overlapping
left-to-right replacement of every occurrence by `rep`. -/
def replaceNE (p : Char) (ps rep s : Str) : Str := replaceF p ps rep s.length s

/-- Fuel-driven body of `stripTags`; the fuel is initialised to the string
length and at least one unit is spent per step, so it never runs out. -/
def stripTagsF : Nat → Str → Str
  | _, [] => []
  | 0, s => s
  | f + 1, c :: cs =>
    if c = '<' then
      match cs.findIdx? (fun x => x = '>') with
      | some k =>
        if 1 ≤ k then stripTagsF f (cs.drop (k + 1))
        else c :: stripTagsF f cs
      | none => c :: stripTagsF f cs
    else c :: stripTagsF f cs

/-- Modelled `re.sub(r"<[^>]+>", "", s)`: repeatedly remove the leftmost
tag, i.e. a `<` followed by at least one non-`>` character and the first
subsequent `>`; a `<` with no such closing `>` is kept and the search
resumes at the next position, as `re.sub` does. -/
def stripTags (s : Str) : Str := stripTagsF s.length s

/-- `ics_escape`: `None` (and thereby the falsy empty string) maps to the
empty string; otherwise strip HTML-like tags, backslash-escape backslash,
semicolon and comma in that order, then turn CRLF and lone LF into the
two-character text `\n`. -/
def ics_escape (s : Option Str) : Str :=
  match s with
  | none => []
  | some s0 =>
    let s1 := stripTags s0
    let s2 := replaceNE '\\' [] ['\\', '\\'] s1
    let s3 := replaceNE ';' [] ['\\', ';'] s2
    let s4 := replaceNE ',' [] ['\\', ','] s3
    let s5 := replaceNE '\r' ['\n'] ['\\', 'n'] s4
    replaceNE '\n' [] ['\\', 'n'] s5

/-- Fuel-driven body of `foldSegments`; the fuel is initialised to the line
length and each chunk consumes 74 net characters, so it never runs out. -/
def foldSegmentsF : Nat → Str → List Str
  | 0, line => [line]
  | f + 1, line =>
    if line.length ≤ 75 then [line]
    else line.take 75 :: foldSegmentsF f (' ' :: line.drop 75)

/-- The segments produced by the folding loop of `fold_ics_line`: chunks of
75 characters, each remainder prefixed with one continuation space. -/
def foldSegments (line : Str) : List Str := foldSegmentsF line.length line

/-- `fold_ics_line`: a line of at most 75 characters is returned unchanged,
otherwise the segments are joined with CRLF. -/
def fold_ics_line (line : Str) : Str :=
  if line.length ≤ 75 then line
  else List.intercalate (str "\r\n") (foldSegments line)

/-- Reverse of folding: first segment concatenated with every continuation
segment minus its one leading continuation character. -/
def unfoldSegs : List Str → Str
  | [] => []
  | a :: rest => a ++ (rest.map (List.drop 1)).flatten

/-- Attributes of a `recurrence` XML element (each `attrib.get` result). -/
structure RecurEl where
  rtype : Option Str
  repeat_every : Option Str
  until_date : Option Str
  unitil_date : Option Str
  repeat_on : Option Str

deriving DecidableEq, Repr

/-- Python `a or b` on optional strings: an absent or empty left operand
falls through to the right operand. -/
def pyOr (a b : Option Str) : Option Str :=
  match a with
  | some s => if s = [] then b else some s
  | none => b

/-- The day-code table indexed 0 = Sunday through 6 = Saturday. -/
def dowMap : List Str :=
  [str "SU", str "MO", str "TU", str "WE", str "TH", str "FR", str "SA"]

/-- The `byday` computation of `build_rrule`: for a truthy mask of exactly
seven characters, the comma-joined day codes of the `'1'` positions, or
`None` when no day is active; otherwise `None`. -/
def bydayOf (rep : Option Str) : Option Str :=
  match rep with
  | some m =>
    if m ≠ [] ∧ m.length = 7 then
      let days := m.enum.filterMap
        (fun p => if p.2 = '1' then some (dowMap.getD p.1 []) else none)
      if days = [] then none else some (List.intercalate (str ",") days)
    else none
  | none => none

/-- The `UNTIL` computation of `build_rrule`: resolve `until_date` with the
misspelled `unitil_date` fallback; a truthy value is parsed (a failure
propagates) and rendered in basic UTC format. -/
def untilExcept (el : RecurEl) : Except Str (Option Str) :=
  match pyOr el.until_date el.unitil_date with
  | some u =>
    if u = [] then .ok none
    else (parse1 u).map (fun dt => some (dt_to_ics dt))
  | none => .ok none

/-- `build_rrule` of `mxl_to_ics_impl.py`: `None` element or `None` type or a
capitalised type other than `Weekly` produce no rule; otherwise the parts
`FREQ`, `INTERVAL` (raw attribute text, default `"1"`), optional `UNTIL`,
optional `BYDAY` are semicolon-joined. -/
def build_rrule : Option RecurEl → Except Str (Option Str)
  | none => .ok none
  | some el =>
    match el.rtype with
    | none => .ok none
    | some t =>
      if pyCapitalize t = str "Weekly" then
        match untilExcept el with
        | .error e => .error e
        | .ok u =>
          .ok (some (List.intercalate (str ";")
            (str "FREQ=WEEKLY" :: (str "INTERVAL=" ++ el.repeat_every.getD (str "1")) ::
              ((u.map (fun x => str "UNTIL=" ++ x)).toList ++
                ((bydayOf el.repeat_on).map (fun b => str "BYDAY=" ++ b)).toList))))
      else .ok none

/-- An `event` XML element: the attribute and child lookups performed by the
assembler (`findtext` yields `None` for a missing child). -/
structure EventEl where
  eid : Option Str
  is_allday_event : Option Str
  title : Option Str
  description : Option Str
  start_date : Option Str
  end_date : Option Str
  location : Option Str
  recurrence : Option RecurEl

deriving DecidableEq, Repr

/-- Python `parse_utcdatetime(raw) if raw else None`: only a truthy (present
and nonempty) datetime string is parsed. -/
def optParseTruthy : Option Str → Except Str (Option PyDateTime)
  | some s => if s = [] then .ok none else (parse1 s).map some
  | none => .ok none

/-- The all-day flag: `attrib.get("is_allday_event", "False").lower() == "true"`. -/
def alldayFlag (a : Option Str) : Bool := asciiLower (a.getD (str "False")) = str "true"

/-- `make_uid`: deterministic identifier from the event id and a timestamp. -/
def make_uid (eid : Str) (dt : PyDateTime) : Str :=
  eid ++ str "-" ++ dt_to_ics dt ++ str "@mxl2ics"

/-- The fallible per-event work of `mxl_to_ics`, in evaluation order: parse
the start date, the end date, then build the recurrence rule (which may parse
the until date).  Everything else on the event path is pure. -/
def eventParses (ev : EventEl) :
    Except Str (Option PyDateTime × Option PyDateTime × Option Str) :=
  match optParseTruthy ev.start_date with
  | .error e => .error e
  | .ok sdt =>
    match optParseTruthy ev.end_date with
    | .error e => .error e
    | .ok edt =>
      match build_rrule ev.recurrence with
      | .error e => .error e
      | .ok rr => .ok (sdt, edt, rr)

/-- The VEVENT lines of one event in `mxl_to_ics`, given the parse results
and the injected current time (used for DTSTAMP and the UID fallback).
SUMMARY, DESCRIPTION and LOCATION are folded at append time, as the source
does. -/
def eventBody (ev : EventEl) (now : PyDateTime)
    (sdt edt : Option PyDateTime) (rr : Option Str) : List Str :=
  let title := pyStrip (ev.title.getD [])
  let desc := ev.description.getD []
  let loc := pyStrip (ev.location.getD [])
  let allday := alldayFlag ev.is_allday_event
  [str "BEGIN:VEVENT"]
  ++ (match sdt with
      | some dt =>
        [if allday then str "DTSTART;VALUE=DATE:" ++ dtDate dt
         else str "DTSTART:" ++ dt_to_ics dt]
      | none => [])
  ++ (match edt with
      | some dt =>
        [if allday then str "DTEND;VALUE=DATE:" ++ dtDate dt
         else str "DTEND:" ++ dt_to_ics dt]
      | none => [])
  ++ [str "UID:" ++ make_uid (ev.eid.getD (str "x")) (sdt.getD now)]
  ++ [fold_ics_line (str "SUMMARY:" ++ ics_escape (some title))]
  ++ (if desc ≠ [] then [fold_ics_line (str "DESCRIPTION:" ++ ics_escape (some desc))] else [])
  ++ (if loc ≠ [] then [fold_ics_line (str "LOCATION:" ++ ics_escape (some loc))] else [])
  ++ (match rr with
      | some r => [str "RRULE:" ++ r]
      | none => [])
  ++ [str "DTSTAMP:" ++ dt_to_ics now]
  ++ [str "END:VEVENT"]

/-- The lines of one event, or the first datetime error it raises. -/
def eventLines (ev : EventEl) (now : PyDateTime) : Except Str (List Str) :=
  (eventParses ev).map (fun p => eventBody ev now p.1 p.2.1 p.2.2)

/-- The concatenated event lines in feed order; an error aborts the whole
iteration. -/
def eventsLines : List EventEl → PyDateTime → Except Str (List Str)
  | [], _ => .ok []
  | ev :: rest, now =>
    match eventLines ev now with
    | .error e => .error e
    | .ok l1 =>
      match eventsLines rest now with
      | .error e => .error e
      | .ok l2 => .ok (l1 ++ l2)

/-- The fixed five header lines of the document. -/
def calHeader : List Str :=
  [str "BEGIN:VCALENDAR", str "PRODID:-//mxl-to-ics//saskpolytech//EN",
   str "VERSION:2.0", str "CALSCALE:GREGORIAN", str "METHOD:PUBLISH"]

/-- All lines of the document assembled by `mxl_to_ics` before folding. -/
def calLines (evs : List EventEl) (now : PyDateTime) : Except Str (List Str) :=
  (eventsLines evs now).map (fun body => calHeader ++ body ++ [str "END:VCALENDAR"])

/-- `mxl_to_ics` (file output modelled as the returned document): every line
is folded, lines are joined with CRLF, and a trailing CRLF is appended; an
error means the destination file is never written. -/
def mxl_to_ics (evs : List EventEl) (now : PyDateTime) : Except Str Str :=
  (calLines evs now).map
    (fun ls => List.intercalate (str "\r\n") (ls.map fold_ics_line) ++ str "\r\n")

/-- The per-event parses of `convert` in `__init__.py` (its own
`parse_utcdatetime` propagates the raw `fromisoformat` error). -/
def optParseTruthyInit : Option Str → Except Str (Option PyDateTime)
  | some s => if s = [] then .ok none else (parse1init s).map some
  | none => .ok none

/-- The `UNTIL` computation of `build_rrule` in `__init__.py`. -/
def untilExceptInit (el : RecurEl) : Except Str (Option Str) :=
  match pyOr el.until_date el.unitil_date with
  | some u =>
    if u = [] then .ok none
    else (parse1init u).map (fun dt => some (dt_to_ics dt))
  | none => .ok none

/-- `build_rrule` of `__init__.py`: `(attrib.get("type") or "").capitalize()`
compared with `Weekly`; the joined value is built exactly as in the impl
module, with `",".join(...) or None` for BYDAY. -/
def build_rruleInit : Option RecurEl → Except Str (Option Str)
  | none => .ok none
  | some el =>
    if pyCapitalize ((pyOr el.rtype none).getD []) = str "Weekly" then
      match untilExceptInit el with
      | .error e => .error e
      | .ok u =>
        .ok (some (List.intercalate (str ";")
          (str "FREQ=WEEKLY" :: (str "INTERVAL=" ++ el.repeat_every.getD (str "1")) ::
            ((u.map (fun x => str "UNTIL=" ++ x)).toList ++
              ((bydayOf el.repeat_on).map (fun b => str "BYDAY=" ++ b)).toList))))
    else .ok none

/-- The fallible per-event work of `convert`. -/
def convEventParses (ev : EventEl) :
    Except Str (Option PyDateTime × Option PyDateTime × Option Str) :=
  match optParseTruthyInit ev.start_date with
  | .error e => .error e
  | .ok sdt =>
    match optParseTruthyInit ev.end_date with
    | .error e => .error e
    | .ok edt =>
      match build_rruleInit ev.recurrence with
      | .error e => .error e
      | .ok rr => .ok (sdt, edt, rr)

/-- The VEVENT lines of one event in `convert`: same structure as in the impl
module, but no line is folded. -/
def convEventBody (ev : EventEl) (now : PyDateTime)
    (sdt edt : Option PyDateTime) (rr : Option Str) : List Str :=
  let title := pyStrip (ev.title.getD [])
  let desc := ev.description.getD []
  let loc := pyStrip (ev.location.getD [])
  let allday := alldayFlag ev.is_allday_event
  [str "BEGIN:VEVENT"]
  ++ (match sdt with
      | some dt =>
        [if allday then str "DTSTART;VALUE=DATE:" ++ dtDate dt
         else str "DTSTART:" ++ dt_to_ics dt]
      | none => [])
  ++ (match edt with
      | some dt =>
        [if allday then str "DTEND;VALUE=DATE:" ++ dtDate dt
         else str "DTEND:" ++ dt_to_ics dt]
      | none => [])
  ++ [str "UID:" ++ make_uid (ev.eid.getD (str "x")) (sdt.getD now)]
  ++ [str "SUMMARY:" ++ ics_escape (some title)]
  ++ (if desc ≠ [] then [str "DESCRIPTION:" ++ ics_escape (some desc)] else [])
  ++ (if loc ≠ [] then [str "LOCATION:" ++ ics_escape (some loc)] else [])
  ++ (match rr with
      | some r => [str "RRULE:" ++ r]
      | none => [])
  ++ [str "DTSTAMP:" ++ dt_to_ics now]
  ++ [str "END:VEVENT"]

/-- The lines of one event in `convert`. -/
def convEventLines (ev : EventEl) (now : PyDateTime) : Except Str (List Str) :=
  (convEventParses ev).map (fun p => convEventBody ev now p.1 p.2.1 p.2.2)

/-- The concatenated event lines of `convert` in feed order. -/
def convEventsLines : List EventEl → PyDateTime → Except Str (List Str)
  | [], _ => .ok []
  | ev :: rest, now =>
    match convEventLines ev now with
    | .error e => .error e
    | .ok l1 =>
      match convEventsLines rest now with
      | .error e => .error e
      | .ok l2 => .ok (l1 ++ l2)

/-- All lines of the document assembled by `convert`. -/
def convCalLines (evs : List EventEl) (now : PyDateTime) : Except Str (List Str) :=
  (convEventsLines evs now).map (fun body => calHeader ++ body ++ [str "END:VCALENDAR"])

/-- `convert` of `__init__.py`: the lines are joined with CRLF and a trailing
CRLF is appended; no folding is applied anywhere. -/
def convert (evs : List EventEl) (now : PyDateTime) : Except Str Str :=
  (convCalLines evs now).map (fun ls => List.intercalate (str "\r\n") ls ++ str "\r\n")

/-- Success test for an `Except` result. -/
def isOkE {α : Type} : Except Str α → Bool
  | .ok _ => true
  | .error _ => false

/-- The active-day codes of a mask, written as the spec words it: the day
codes whose mask index holds a one, in index order. -/
def maskDays (m : Str) : List Str :=
  (List.range 7).filterMap
    (fun i => if m.getD i '0' = '1' then some (dowMap.getD i []) else none)

/-- A datetime string that matches neither the wrapper pattern nor the
plain-ISO fallback. -/
def bothFail (s : Str) : Prop := findWrapper s = none ∧ fromiso (removeZ s) = none

/-- The first datetime string of an event, in processing order (start, end,
then the until date of a weekly recurrence), that the engine actually parses
and that matches neither format. -/
def evFirstBothFail (ev : EventEl) (s : Str) : Prop :=
  (ev.start_date = some s ∧ s ≠ [] ∧ bothFail s)
  ∨ (isOkE (optParseTruthy ev.start_date) = true ∧ ev.end_date = some s ∧ s ≠ [] ∧ bothFail s)
  ∨ (isOkE (optParseTruthy ev.start_date) = true ∧ isOkE (optParseTruthy ev.end_date) = true ∧
      (∃ rec t, ev.recurrence = some rec ∧ rec.rtype = some t ∧
        pyCapitalize t = str "Weekly" ∧ pyOr rec.until_date rec.unitil_date = some s)
      ∧ s ≠ [] ∧ bothFail s)

theorem foldSegmentsF_irrel (f : Nat) :
    ∀ (g : Nat) (line : Str), line.length ≤ 74 * f + 75 → line.length ≤ 74 * g + 75 →
      foldSegmentsF f line = foldSegmentsF g line := by
  induction f with
  | zero =>
    intro g line hf _
    cases g with
    | zero => rfl
    | succ g' =>
      simp only [foldSegmentsF]
      rw [if_pos (by omega)]
  | succ f' ih =>
    intro g line hf hg
    by_cases hlen : line.length ≤ 75
    · cases g with
      | zero => simp [foldSegmentsF, hlen]
      | succ g' => simp [foldSegmentsF, hlen]
    · cases g with
      | zero => omega
      | succ g' =>
        simp only [foldSegmentsF, if_neg hlen]
        have hdrop : (' ' :: line.drop 75).length = line.length - 74 := by
          simp [List.length_drop]
          omega
        rw [ih g' (' ' :: line.drop 75) (by omega) (by omega)]

theorem foldSegments_eq (line : Str) :
    foldSegments line =
      if line.length ≤ 75 then [line]
      else line.take 75 :: foldSegments (' ' :: line.drop 75) := by
  have h1 : foldSegments line = foldSegmentsF (line.length + 1) line :=
    foldSegmentsF_irrel line.length (line.length + 1) line (by omega) (by omega)
  rw [h1]
  show (if line.length ≤ 75 then [line]
      else line.take 75 :: foldSegmentsF line.length (' ' :: line.drop 75)) = _
  by_cases hlen : line.length ≤ 75
  · rw [if_pos hlen, if_pos hlen]
  · rw [if_neg hlen, if_neg hlen]
    have h2 : (' ' :: line.drop 75).length = line.length - 74 := by
      simp only [List.length_cons, List.length_drop]
      omega
    exact congrArg (line.take 75 :: ·)
      (foldSegmentsF_irrel line.length ((' ' :: line.drop 75).length) (' ' :: line.drop 75)
        (by omega) (by omega))

theorem intercalate_single (sep x : Str) : List.intercalate sep [x] = x := by
  simp [List.intercalate]

/-- Every segment of the folding loop has length at most 75. -/
theorem foldSegments_short (line : Str) : ∀ seg ∈ foldSegments line, seg.length ≤ 75 := by
  rw [foldSegments_eq]
  by_cases h : line.length ≤ 75
  · simp only [if_pos h, List.mem_singleton]
    rintro seg rfl
    exact h
  · simp only [if_neg h, List.mem_cons]
    rintro seg (rfl | hseg)
    · simp only [List.length_take]
      omega
    · exact foldSegments_short (' ' :: line.drop 75) seg hseg
termination_by line.length
decreasing_by
  simp only [List.length_cons, List.length_drop]
  omega

/-- Every segment of a line that already starts with the continuation space
begins with a space. -/
theorem foldSegments_sp (x : Str) :
    ∀ seg ∈ foldSegments (' ' :: x), seg.head? = some ' ' := by
  rw [foldSegments_eq]
  by_cases h : (' ' :: x).length ≤ 75
  · simp only [if_pos h, List.mem_singleton]
    rintro seg rfl
    rfl
  · simp only [if_neg h, List.mem_cons]
    rintro seg (rfl | hseg)
    · rfl
    · exact foldSegments_sp (x.drop 74) seg
        (by simpa using hseg)
termination_by x.length
decreasing_by
  simp only [List.length_cons, List.length_drop] at *
  omega

/-- Dropping the leading continuation character of every segment of an
already-continued line and concatenating recovers the line body. -/
theorem foldSegments_drop (x : Str) :
    ((foldSegments (' ' :: x)).map (List.drop 1)).flatten = x := by
  rw [foldSegments_eq]
  by_cases h : (' ' :: x).length ≤ 75
  · rw [if_pos h]
    simp
  · rw [if_neg h]
    have h75 : (' ' :: x).take 75 = ' ' :: x.take 74 := rfl
    have hdrop : (' ' :: x).drop 75 = x.drop 74 := rfl
    rw [h75, hdrop, List.map_cons, List.flatten_cons, foldSegments_drop (x.drop 74)]
    show x.take 74 ++ x.drop 74 = x
    exact List.take_append_drop 74 x
termination_by x.length
decreasing_by
  simp only [List.length_cons, List.length_drop] at *
  omega

/-- Claim C4: `fold_ics_line` returns a line of at most 75 characters
unchanged; every produced segment is at most 75 characters long; every
continuation segment starts with the one added space; concatenating the
segments minus the continuation character recovers the original line exactly;
and the folded result is precisely the CRLF-join of the segments. -/
theorem fold_ics_line_segments_ok (line : Str) :
    (line.length ≤ 75 → fold_ics_line line = line)
    ∧ (∀ seg ∈ foldSegments line, seg.length ≤ 75)
    ∧ (∀ seg ∈ (foldSegments line).tail, seg.head? = some ' ')
    ∧ unfoldSegs (foldSegments line) = line
    ∧ fold_ics_line line = List.intercalate (str "\r\n") (foldSegments line) := by
  refine ⟨fun h => by simp [fold_ics_line, h], foldSegments_short line, ?_, ?_, ?_⟩
  · rw [foldSegments_eq]
    by_cases h : line.length ≤ 75
    · simp [if_pos h]
    · simp only [if_neg h, List.tail_cons]
      exact foldSegments_sp (line.drop 75)
  · rw [foldSegments_eq]
    by_cases h : line.length ≤ 75
    · simp [if_pos h, unfoldSegs]
    · simp only [if_neg h]
      show line.take 75 ++ ((foldSegments (' ' :: line.drop 75)).map (List.drop 1)).flatten = line
      rw [foldSegments_drop (line.drop 75)]
      exact List.take_append_drop 75 line
  · by_cases h : line.length ≤ 75
    · rw [foldSegments_eq, if_pos h]
      simp [fold_ics_line, h, intercalate_single]
    · simp [fold_ics_line, h]

/-- Witness for C4 at concrete lines of length 10 and 100. -/
theorem fold_ics_line_segments_ok_witness :
    fold_ics_line (List.replicate 10 'a') = List.replicate 10 'a'
    ∧ unfoldSegs (foldSegments (List.replicate 100 'a')) = List.replicate 100 'a'
    ∧ (' ' :: List.replicate 25 'a').length ≤ 75 :=
  ⟨(fold_ics_line_segments_ok (List.replicate 10 'a')).1 (by decide),
   (fold_ics_line_segments_ok (List.replicate 100 'a')).2.2.2.1,
   (fold_ics_line_segments_ok (List.replicate 100 'a')).2.1 (' ' :: List.replicate 25 'a')
     (by decide)⟩

theorem replaceF_id (p : Char) (ps rep : Str) (f : Nat) :
    ∀ s : Str, s.length ≤ f → (∀ c ∈ s, c ≠ p) → replaceF p ps rep f s = s := by
  induction f with
  | zero =>
    intro s hlen _
    have : s = [] := List.eq_nil_of_length_eq_zero (by omega)
    subst this
    rfl
  | succ f' ih =>
    intro s hlen hc
    cases s with
    | nil => rfl
    | cons c cs =>
      have hcp : ¬(c = p ∧ startsWith cs ps) := by
        rintro ⟨rfl, -⟩
        exact hc c (List.mem_cons_self c cs) rfl
      simp only [replaceF, if_neg hcp]
      rw [ih cs (by simpa using Nat.le_of_succ_le_succ (by simpa using hlen))
        (fun d hd => hc d (List.mem_cons_of_mem c hd))]

/-- A replacement whose pattern head never occurs leaves the string unchanged. -/
theorem replaceNE_id (p : Char) (ps rep : Str) (s : Str)
    (hc : ∀ c ∈ s, c ≠ p) : replaceNE p ps rep s = s :=
  replaceF_id p ps rep s.length s le_rfl hc

/-- Counterexample to C6 as stated: escaping is not idempotent on
already-escaped text; re-escaping the output of `escape` on a bare semicolon
re-escapes the backslash that the first pass introduced. -/
theorem ics_escape_not_idempotent :
    ics_escape (some (ics_escape (some (str ";")))) ≠ ics_escape (some (str ";")) := by
  decide

/-- Claim C6 (amended): `escape` leaves unchanged any text without HTML-tag
substrings (a fixed point of the tag stripper) and without backslash,
semicolon, comma, CR or LF, and is therefore idempotent on such text. -/
theorem ics_escape_id_on_plain (s : Str)
    (htag : stripTags s = s)
    (hc : ∀ c ∈ s, ¬(c = '\\' ∨ c = ';' ∨ c = ',' ∨ c = '\r' ∨ c = '\n')) :
    ics_escape (some s) = s ∧ ics_escape (some (ics_escape (some s))) = ics_escape (some s) := by
  have h1 : ics_escape (some s) = s := by
    show (replaceNE '\n' [] ['\\', 'n']
        (replaceNE '\r' ['\n'] ['\\', 'n']
          (replaceNE ',' [] ['\\', ',']
            (replaceNE ';' [] ['\\', ';']
              (replaceNE '\\' [] ['\\', '\\'] (stripTags s)))))) = s
    rw [htag,
      replaceNE_id _ _ _ s (fun c h hcp => hc c h (Or.inl hcp)),
      replaceNE_id _ _ _ s (fun c h hcp => hc c h (Or.inr (Or.inl hcp))),
      replaceNE_id _ _ _ s (fun c h hcp => hc c h (Or.inr (Or.inr (Or.inl hcp)))),
      replaceNE_id _ _ _ s (fun c h hcp => hc c h (Or.inr (Or.inr (Or.inr (Or.inl hcp))))),
      replaceNE_id _ _ _ s (fun c h hcp => hc c h (Or.inr (Or.inr (Or.inr (Or.inr hcp)))))]
  exact ⟨h1, by rw [h1, h1]⟩

/-- Witness for C6 (amended) at the plain text `hello`. -/
theorem ics_escape_id_on_plain_witness :
    ics_escape (some (str "hello")) = str "hello" :=
  (ics_escape_id_on_plain (str "hello") (by decide) (by decide)).1

theorem lowerChar_ne_w (c : Char) (h1 : c ≠ 'w') (h2 : c ≠ 'W') : lowerChar c ≠ 'w' := by
  by_cases hA : c = 'A'
  · subst hA; decide
  by_cases hB : c = 'B'
  · subst hB; decide
  by_cases hC : c = 'C'
  · subst hC; decide
  by_cases hD : c = 'D'
  · subst hD; decide
  by_cases hE : c = 'E'
  · subst hE; decide
  by_cases hF : c = 'F'
  · subst hF; decide
  by_cases hG : c = 'G'
  · subst hG; decide
  by_cases hH : c = 'H'
  · subst hH; decide
  by_cases hI : c = 'I'
  · subst hI; decide
  by_cases hJ : c = 'J'
  · subst hJ; decide
  by_cases hK : c = 'K'
  · subst hK; decide
  by_cases hL : c = 'L'
  · subst hL; decide
  by_cases hM : c = 'M'
  · subst hM; decide
  by_cases hN : c = 'N'
  · subst hN; decide
  by_cases hO : c = 'O'
  · subst hO; decide
  by_cases hP : c = 'P'
  · subst hP; decide
  by_cases hQ : c = 'Q'
  · subst hQ; decide
  by_cases hR : c = 'R'
  · subst hR; decide
  by_cases hS : c = 'S'
  · subst hS; decide
  by_cases hT : c = 'T'
  · subst hT; decide
  by_cases hU : c = 'U'
  · subst hU; decide
  by_cases hV : c = 'V'
  · subst hV; decide
  by_cases hX : c = 'X'
  · subst hX; decide
  by_cases hY : c = 'Y'
  · subst hY; decide
  by_cases hZ : c = 'Z'
  · subst hZ; decide
  unfold lowerChar
  rw [if_neg hA, if_neg hB, if_neg hC, if_neg hD, if_neg hE, if_neg hF, if_neg hG,
    if_neg hH, if_neg hI, if_neg hJ, if_neg hK, if_neg hL, if_neg hM, if_neg hN,
    if_neg hO, if_neg hP, if_neg hQ, if_neg hR, if_neg hS, if_neg hT, if_neg hU,
    if_neg hV, if_neg h2, if_neg hX, if_neg hY, if_neg hZ]
  exact h1

theorem upperChar_ne_W (c : Char) (h1 : c ≠ 'w') (h2 : c ≠ 'W') : upperChar c ≠ 'W' := by
  by_cases hA : c = 'a'
  · subst hA; decide
  by_cases hB : c = 'b'
  · subst hB; decide
  by_cases hC : c = 'c'
  · subst hC; decide
  by_cases hD : c = 'd'
  · subst hD; decide
  by_cases hE : c = 'e'
  · subst hE; decide
  by_cases hF : c = 'f'
  · subst hF; decide
  by_cases hG : c = 'g'
  · subst hG; decide
  by_cases hH : c = 'h'
  · subst hH; decide
  by_cases hI : c = 'i'
  · subst hI; decide
  by_cases hJ : c = 'j'
  · subst hJ; decide
  by_cases hK : c = 'k'
  · subst hK; decide
  by_cases hL : c = 'l'
  · subst hL; decide
  by_cases hM : c = 'm'
  · subst hM; decide
  by_cases hN : c = 'n'
  · subst hN; decide
  by_cases hO : c = 'o'
  · subst hO; decide
  by_cases hP : c = 'p'
  · subst hP; decide
  by_cases hQ : c = 'q'
  · subst hQ; decide
  by_cases hR : c = 'r'
  · subst hR; decide
  by_cases hS : c = 's'
  · subst hS; decide
  by_cases hT : c = 't'
  · subst hT; decide
  by_cases hU : c = 'u'
  · subst hU; decide
  by_cases hV : c = 'v'
  · subst hV; decide
  by_cases hX : c = 'x'
  · subst hX; decide
  by_cases hY : c = 'y'
  · subst hY; decide
  by_cases hZ : c = 'z'
  · subst hZ; decide
  unfold upperChar
  rw [if_neg hA, if_neg hB, if_neg hC, if_neg hD, if_neg hE, if_neg hF, if_neg hG,
    if_neg hH, if_neg hI, if_neg hJ, if_neg hK, if_neg hL, if_neg hM, if_neg hN,
    if_neg hO, if_neg hP, if_neg hQ, if_neg hR, if_neg hS, if_neg hT, if_neg hU,
    if_neg hV, if_neg h1, if_neg hX, if_neg hY, if_neg hZ]
  exact h2

theorem lowerChar_w_iff (c : Char) : lowerChar c = 'w' ↔ upperChar c = 'W' := by
  by_cases h1 : c = 'w'
  · subst h1
    decide
  · by_cases h2 : c = 'W'
    · subst h2
      decide
    · exact ⟨fun h => absurd h (lowerChar_ne_w c h1 h2),
        fun h => absurd h (upperChar_ne_W c h1 h2)⟩

/-- The case-insensitive comparison of the source: lowercasing the type text
to `weekly` is equivalent to the capitalisation test against `Weekly`. -/
theorem asciiLower_weekly_iff (t : Str) :
    asciiLower t = str "weekly" ↔ pyCapitalize t = str "Weekly" := by
  cases t with
  | nil =>
    constructor <;> (intro h; exact absurd h (by decide))
  | cons c cs =>
    show lowerChar c :: cs.map lowerChar = str "weekly" ↔
      upperChar c :: cs.map lowerChar = str "Weekly"
    rw [show str "weekly" = 'w' :: str "eekly" from rfl,
      show str "Weekly" = 'W' :: str "eekly" from rfl]
    simp only [List.cons.injEq]
    exact and_congr_left (fun _ => lowerChar_w_iff c)

theorem startsWith_false_of_head (l p : Str) (c : Char) (hp : p.head? = some c)
    (hl : l.head? ≠ some c) : startsWith l p = false := by
  cases p with
  | nil => cases hp
  | cons pc ps =>
    have hpc : pc = c := by
      simpa using hp
    subst hpc
    cases l with
    | nil => rfl
    | cons d ds =>
      have hd : d ≠ pc := fun h => hl (by simp [h])
      simp [startsWith, hd]

theorem intercalate_head (sep a : Str) (rest : List Str) :
    ∃ z, List.intercalate sep (a :: rest) = a ++ z := by
  cases rest with
  | nil => exact ⟨[], by simp [intercalate_single]⟩
  | cons b t =>
    refine ⟨sep ++ List.intercalate sep (b :: t), ?_⟩
    show (List.intersperse sep (a :: b :: t)).flatten = _
    show (a :: sep :: List.intersperse sep (b :: t)).flatten = _
    simp [List.intercalate]

/-- Folding preserves the first character of a line. -/
theorem fold_ics_line_head (l : Str) : (fold_ics_line l).head? = l.head? := by
  unfold fold_ics_line
  by_cases h : l.length ≤ 75
  · rw [if_pos h]
  · rw [if_neg h]
    rw [foldSegments_eq, if_neg h]
    obtain ⟨z, hz⟩ := intercalate_head (str "\r\n") (l.take 75) (foldSegments (' ' :: l.drop 75))
    rw [hz]
    cases l with
    | nil => simp at h
    | cons c cs => rfl

theorem head_ne_of (x : Str) (c c' : Char) (h : x.head? = some c) (hcc : c ≠ c') :
    x.head? ≠ some c' := by
  rw [h]
  simp [hcc]

/-- An event whose recurrence translation produced no rule emits no line
starting with `RRULE:`. -/
theorem eventBody_no_rrule (ev : EventEl) (now : PyDateTime) (sdt edt : Option PyDateTime) :
    ∀ l ∈ eventBody ev now sdt edt none, startsWith l (str "RRULE:") = false := by
  intro l hl
  apply startsWith_false_of_head l (str "RRULE:") 'R' rfl
  simp only [eventBody, List.mem_append, List.mem_cons, List.mem_singleton,
    List.not_mem_nil, or_false, false_or] at hl
  rcases hl with (((((((h | h) | h) | h) | h) | h) | h) | h) | h
  · rw [h]
    decide
  · cases sdt with
    | none => exact absurd h (List.not_mem_nil l)
    | some dt =>
      rw [List.mem_singleton] at h
      rw [h]
      by_cases ha : alldayFlag ev.is_allday_event = true
      · rw [if_pos ha]
        exact head_ne_of _ 'D' 'R' rfl (by decide)
      · rw [if_neg ha]
        exact head_ne_of _ 'D' 'R' rfl (by decide)
  · cases edt with
    | none => exact absurd h (List.not_mem_nil l)
    | some dt =>
      rw [List.mem_singleton] at h
      rw [h]
      by_cases ha : alldayFlag ev.is_allday_event = true
      · rw [if_pos ha]
        exact head_ne_of _ 'D' 'R' rfl (by decide)
      · rw [if_neg ha]
        exact head_ne_of _ 'D' 'R' rfl (by decide)
  · rw [h]
    exact head_ne_of _ 'U' 'R' rfl (by decide)
  · rw [h, fold_ics_line_head]
    exact head_ne_of _ 'S' 'R' rfl (by decide)
  · split at h
    · rw [List.mem_singleton] at h
      rw [h, fold_ics_line_head]
      exact head_ne_of _ 'D' 'R' rfl (by decide)
    · exact absurd h (List.not_mem_nil l)
  · split at h
    · rw [List.mem_singleton] at h
      rw [h, fold_ics_line_head]
      exact head_ne_of _ 'L' 'R' rfl (by decide)
    · exact absurd h (List.not_mem_nil l)
  · rw [h]
    exact head_ne_of _ 'D' 'R' rfl (by decide)
  · rw [h]
    exact head_ne_of _ 'E' 'R' rfl (by decide)

/-- Claim C8: an absent recurrence element, an absent type attribute, or a
type that is not `weekly` under case-insensitive comparison produce no rule
and no error; every casing of `weekly` produces a rule (provided the until
attribute, if present, parses); and an event whose translation produced no
rule carries no RRULE line. -/
theorem build_rrule_weekly_gate :
    build_rrule none = .ok none
    ∧ (∀ el : RecurEl, el.rtype = none → build_rrule (some el) = .ok none)
    ∧ (∀ (el : RecurEl) (t : Str), el.rtype = some t → asciiLower t ≠ str "weekly" →
        build_rrule (some el) = .ok none)
    ∧ (∀ (el : RecurEl) (t : Str), el.rtype = some t → asciiLower t = str "weekly" →
        isOkE (untilExcept el) = true → ∃ v, build_rrule (some el) = .ok (some v))
    ∧ (∀ (ev : EventEl) (now : PyDateTime) (ls : List Str),
        build_rrule ev.recurrence = .ok none → eventLines ev now = .ok ls →
        ∀ l ∈ ls, startsWith l (str "RRULE:") = false) := by
  refine ⟨rfl, ?_, ?_, ?_, ?_⟩
  · intro el h
    simp only [build_rrule, h]
  · intro el t ht hlow
    simp only [build_rrule, ht]
    rw [if_neg (fun hc => hlow ((asciiLower_weekly_iff t).mpr hc))]
  · intro el t ht hlow hok
    simp only [build_rrule, ht]
    rw [if_pos ((asciiLower_weekly_iff t).mp hlow)]
    cases hu : untilExcept el with
    | error e =>
      rw [hu] at hok
      exact absurd hok (by simp [isOkE])
    | ok u => exact ⟨_, rfl⟩
  · intro ev now ls hrr hev
    unfold eventLines eventParses at hev
    cases hs : optParseTruthy ev.start_date with
    | error e =>
      rw [hs] at hev
      exact absurd hev (by simp [Except.map])
    | ok sdt =>
      cases he : optParseTruthy ev.end_date with
      | error e =>
        rw [hs, he] at hev
        exact absurd hev (by simp [Except.map])
      | ok edt =>
        rw [hs, he, hrr] at hev
        simp only [Except.map] at hev
        cases hev
        exact eventBody_no_rrule ev now sdt edt

/-- Witness for C8: a `Monthly` recurrence yields no rule; an allcaps
`WEEKLY` recurrence yields a rule. -/
theorem build_rrule_weekly_gate_witness :
    build_rrule (some ⟨some (str "Monthly"), none, none, none, none⟩) = .ok none
    ∧ ∃ v, build_rrule (some ⟨some (str "WEEKLY"), none, none, none, none⟩) = .ok (some v) :=
  ⟨build_rrule_weekly_gate.2.2.1 ⟨some (str "Monthly"), none, none, none, none⟩
      (str "Monthly") rfl (by decide),
   build_rrule_weekly_gate.2.2.2.1 ⟨some (str "WEEKLY"), none, none, none, none⟩
      (str "WEEKLY") rfl (by decide) (by decide)⟩

theorem list_len7 {α : Type} (l : List α) (h : l.length = 7) :
    ∃ a b c d e f g, l = [a, b, c, d, e, f, g] := by
  rcases l with _ | ⟨a, _ | ⟨b, _ | ⟨c, _ | ⟨d, _ | ⟨e, _ | ⟨f, _ | ⟨g, _ | ⟨x, t⟩⟩⟩⟩⟩⟩⟩⟩
  · simp at h
  · simp at h
  · simp at h
  · simp at h
  · simp at h
  · simp at h
  · simp at h
  · exact ⟨a, b, c, d, e, f, g, rfl⟩
  · simp only [List.length_cons] at h
    omega

/-- Claim C5: for a seven-character 0/1 mask on a weekly recurrence the BYDAY
clause lists exactly the day codes of the `'1'` positions in SU..SA order,
comma-joined, and is omitted when no day is active; an absent mask or one of
any other length yields no BYDAY clause; and `build_rrule` places exactly
this clause in the produced value. -/
theorem byday_from_mask (m : Str) (hlen : m.length = 7)
    (hbits : ∀ c ∈ m, c = '0' ∨ c = '1') :
    (bydayOf (some m) =
      if maskDays m = [] then none else some (List.intercalate (str ",") (maskDays m)))
    ∧ bydayOf (some (str "0000000")) = none
    ∧ bydayOf none = none
    ∧ (∀ m2 : Str, m2.length ≠ 7 → bydayOf (some m2) = none)
    ∧ (∀ (el : RecurEl) (t : Str) (u : Option Str),
        el.rtype = some t → pyCapitalize t = str "Weekly" → el.repeat_on = some m →
        untilExcept el = .ok u →
        build_rrule (some el) = .ok (some (List.intercalate (str ";")
          (str "FREQ=WEEKLY" :: (str "INTERVAL=" ++ el.repeat_every.getD (str "1")) ::
            ((u.map (fun x => str "UNTIL=" ++ x)).toList ++
              ((bydayOf (some m)).map (fun b => str "BYDAY=" ++ b)).toList))))) := by
  refine ⟨?_, by decide, rfl, ?_, ?_⟩
  · obtain ⟨a, b, c, d, e, f, g, rfl⟩ := list_len7 m hlen
    have ha := hbits a (by simp)
    have hb := hbits b (by simp)
    have hc := hbits c (by simp)
    have hd := hbits d (by simp)
    have he := hbits e (by simp)
    have hf := hbits f (by simp)
    have hg := hbits g (by simp)
    rcases ha with rfl | rfl <;> rcases hb with rfl | rfl <;> rcases hc with rfl | rfl <;>
      rcases hd with rfl | rfl <;> rcases he with rfl | rfl <;> rcases hf with rfl | rfl <;>
      rcases hg with rfl | rfl <;> decide
  · intro m2 h2
    simp only [bydayOf]
    rw [if_neg (fun hcon => h2 hcon.2)]
  · intro el t u ht hcap hrep hu
    simp only [build_rrule, ht, if_pos hcap, hu, hrep]

/-- Witness for C5: the sample mask `0010010` yields `TU,FR`. -/
theorem byday_from_mask_witness :
    bydayOf (some (str "0010010")) = some (str "TU,FR") :=
  ((byday_from_mask (str "0010010") (by decide) (by decide)).1).trans (by decide)

/-- Claim C1: the sample recurrence translates to exactly
`FREQ=WEEKLY;INTERVAL=2;UNTIL=20220801T000000Z;BYDAY=TU,FR`, and in general
every produced value is the semicolon-joined list of parts in the fixed order
FREQ, INTERVAL, optional UNTIL, optional BYDAY. -/
theorem build_rrule_scenario_and_shape :
    build_rrule (some ⟨some (str "Weekly"), some (str "2"),
        some (str "\x7butcdatetime:U2022-08-01T00:00:00.000\x7d"), none, some (str "0010010")⟩) =
      .ok (some (str "FREQ=WEEKLY;INTERVAL=2;UNTIL=20220801T000000Z;BYDAY=TU,FR"))
    ∧ (∀ (el : RecurEl) (v : Str), build_rrule (some el) = .ok (some v) →
        ∃ (i : Str) (uPart bPart : List Str),
          v = List.intercalate (str ";")
            (str "FREQ=WEEKLY" :: (str "INTERVAL=" ++ i) :: (uPart ++ bPart))
          ∧ (uPart = [] ∨ ∃ x, uPart = [str "UNTIL=" ++ x])
          ∧ (bPart = [] ∨ ∃ x, bPart = [str "BYDAY=" ++ x])) := by
  refine ⟨by decide, ?_⟩
  intro el v hv
  cases ht : el.rtype with
  | none =>
    simp only [build_rrule, ht] at hv
    cases hv
  | some t =>
    simp only [build_rrule, ht] at hv
    by_cases hcap : pyCapitalize t = str "Weekly"
    · rw [if_pos hcap] at hv
      cases hu : untilExcept el with
      | error e =>
        simp only [hu] at hv
        cases hv
      | ok u =>
        simp only [hu] at hv
        refine ⟨el.repeat_every.getD (str "1"),
          (u.map (fun x => str "UNTIL=" ++ x)).toList,
          ((bydayOf el.repeat_on).map (fun b => str "BYDAY=" ++ b)).toList, ?_, ?_, ?_⟩
        · cases hv
          rfl
        · cases u with
          | none => exact Or.inl rfl
          | some x => exact Or.inr ⟨x, rfl⟩
        · cases bydayOf el.repeat_on with
          | none => exact Or.inl rfl
          | some x => exact Or.inr ⟨x, rfl⟩
    · rw [if_neg hcap] at hv
      cases hv

/-- Witness for C1: the shape statement applied to the sample recurrence. -/
theorem build_rrule_scenario_and_shape_witness :
    ∃ (i : Str) (uPart bPart : List Str),
      str "FREQ=WEEKLY;INTERVAL=2;UNTIL=20220801T000000Z;BYDAY=TU,FR" =
        List.intercalate (str ";")
          (str "FREQ=WEEKLY" :: (str "INTERVAL=" ++ i) :: (uPart ++ bPart))
      ∧ (uPart = [] ∨ ∃ x, uPart = [str "UNTIL=" ++ x])
      ∧ (bPart = [] ∨ ∃ x, bPart = [str "BYDAY=" ++ x]) :=
  build_rrule_scenario_and_shape.2
    ⟨some (str "Weekly"), some (str "2"),
      some (str "\x7butcdatetime:U2022-08-01T00:00:00.000\x7d"), none, some (str "0010010")⟩
    (str "FREQ=WEEKLY;INTERVAL=2;UNTIL=20220801T000000Z;BYDAY=TU,FR")
    build_rrule_scenario_and_shape.1

theorem isDigit_digitChar (k : Nat) (hk : k < 10) : isDigit (digitChar k) = true := by
  interval_cases k <;> decide

theorem charVal_digitChar (k : Nat) (hk : k < 10) : charVal (digitChar k) = k := by
  interval_cases k <;> decide

theorem digitChar_ne_dash (k : Nat) (hk : k < 10) : (digitChar k = '-') = False := by
  interval_cases k <;> decide

theorem digitChar_ne_colon (k : Nat) (hk : k < 10) : (digitChar k = ':') = False := by
  interval_cases k <;> decide

theorem digitChar_ne_brace (k : Nat) (hk : k < 10) : digitChar k ≠ '\x7b' := by
  interval_cases k <;> decide

theorem digitChar_ne_Z (k : Nat) (hk : k < 10) : digitChar k ≠ 'Z' := by
  interval_cases k <;> decide

theorem digitChar_bne_Z (k : Nat) (hk : k < 10) : (digitChar k != 'Z') = true := by
  interval_cases k <;> decide

theorem digitChar_ne_W (k : Nat) (hk : k < 10) : (digitChar k = 'W') = False := by
  interval_cases k <;> decide

theorem digitChar_ne_tz (k : Nat) (hk : k < 10) :
    (digitChar k = '+' ∨ digitChar k = '-' ∨ digitChar k = 'Z') = False := by
  interval_cases k <;> decide

theorem digitChar_ne_frac (k : Nat) (hk : k < 10) :
    (digitChar k = '.' ∨ digitChar k = ',') = False := by
  interval_cases k <;> decide

theorem charVal_le9 (c : Char) (h : isDigit c = true) : charVal c ≤ 9 := by
  unfold isDigit at h
  simp only [Bool.and_eq_true, decide_eq_true_eq] at h
  unfold charVal
  omega

/-- A string with no opening brace never matches the wrapper pattern. -/
theorem findWrapper_none (s : Str) (h : ∀ c ∈ s, c ≠ '\x7b') : findWrapper s = none := by
  induction s with
  | nil => rfl
  | cons c cs ih =>
    have hc : startsWith (c :: cs) wrapMark = false := by
      show (c = '\x7b' && startsWith cs (str "utcdatetime:U")) = false
      simp [h c (List.mem_cons_self c cs)]
    simp only [findWrapper, hc, Bool.false_eq_true, if_false]
    exact ih (fun d hd => h d (List.mem_cons_of_mem c hd))

theorem removeZ_cons_keep (c : Char) (s : Str) (h : c ≠ 'Z') :
    removeZ (c :: s) = c :: removeZ s := by
  simp [removeZ, List.filter_cons, h]

theorem removeZ_cons_drop (s : Str) : removeZ ('Z' :: s) = removeZ s := by
  simp [removeZ, List.filter_cons]

/-- Every value passed through the constructor checks lands in the
`validDT` ranges: the checked condition is the `validDT` condition. -/
theorem datetime_check_valid (y mo d h mi se us : Nat) (dt : PyDateTime)
    (hp : datetime_check y mo d h mi se us = some dt) : validDT dt := by
  unfold datetime_check at hp
  split at hp
  · next hc =>
    cases hp
    exact hc
  · cases hp

/-- Every value produced by the `fromisoformat` model has fields in the
`datetime` ranges (year, month, day, hour, minute and second all pass the
constructor checks, on both the calendar and the week-date path). -/
theorem fromiso_valid (s : Str) (dt : PyDateTime) (h : fromiso s = some dt) :
    validDT dt := by
  unfold fromiso at h
  repeat' split at h
  all_goals first
    | cases h
    | exact datetime_check_valid _ _ _ _ _ _ _ _ h

theorem daysInMonth_le31 (y m : Nat) : daysInMonth y m ≤ 31 := by
  unfold daysInMonth
  split_ifs <;> omega

/-- Re-parsing a rendered basic-format timestamp recovers the value with zero
microseconds. -/
theorem fromiso_basic15 (y mo d h mi s : Nat)
    (hy1 : 1 ≤ y) (hy2 : y ≤ 9999) (hm1 : 1 ≤ mo) (hm2 : mo ≤ 12)
    (hd1 : 1 ≤ d) (hd2 : d ≤ daysInMonth y mo) (hh : h ≤ 23) (hmi : mi ≤ 59) (hs : s ≤ 59) :
    fromiso [digitChar (y / 1000), digitChar (y / 100 % 10), digitChar (y / 10 % 10),
      digitChar (y % 10), digitChar (mo / 10), digitChar (mo % 10), digitChar (d / 10),
      digitChar (d % 10), 'T', digitChar (h / 10), digitChar (h % 10), digitChar (mi / 10),
      digitChar (mi % 10), digitChar (s / 10), digitChar (s % 10)] =
      some ⟨y, mo, d, h, mi, s, 0⟩ := by
  have hd31 : d ≤ 31 := le_trans hd2 (daysInMonth_le31 y mo)
  have g1 : isDigit (digitChar (y / 1000)) = true := isDigit_digitChar _ (by omega)
  have g2 : isDigit (digitChar (y / 100 % 10)) = true := isDigit_digitChar _ (by omega)
  have g3 : isDigit (digitChar (y / 10 % 10)) = true := isDigit_digitChar _ (by omega)
  have g4 : isDigit (digitChar (y % 10)) = true := isDigit_digitChar _ (by omega)
  have g5 : isDigit (digitChar (mo / 10)) = true := isDigit_digitChar _ (by omega)
  have g6 : isDigit (digitChar (mo % 10)) = true := isDigit_digitChar _ (by omega)
  have g7 : isDigit (digitChar (d / 10)) = true := isDigit_digitChar _ (by omega)
  have g8 : isDigit (digitChar (d % 10)) = true := isDigit_digitChar _ (by omega)
  have g9 : isDigit (digitChar (h / 10)) = true := isDigit_digitChar _ (by omega)
  have g10 : isDigit (digitChar (h % 10)) = true := isDigit_digitChar _ (by omega)
  have g11 : isDigit (digitChar (mi / 10)) = true := isDigit_digitChar _ (by omega)
  have g12 : isDigit (digitChar (mi % 10)) = true := isDigit_digitChar _ (by omega)
  have g13 : isDigit (digitChar (s / 10)) = true := isDigit_digitChar _ (by omega)
  have g14 : isDigit (digitChar (s % 10)) = true := isDigit_digitChar _ (by omega)
  have n1 : (digitChar (mo / 10) = '-') = False := digitChar_ne_dash _ (by omega)
  have n2 : (digitChar (mi / 10) = ':') = False := digitChar_ne_colon _ (by omega)
  have n3 : (digitChar (s / 10) = ':') = False := digitChar_ne_colon _ (by omega)
  have nW : (digitChar (mo / 10) = 'W') = False := digitChar_ne_W _ (by omega)
  have nf1 : (digitChar (mi / 10) = '.' ∨ digitChar (mi / 10) = ',') = False :=
    digitChar_ne_frac _ (by omega)
  have nf2 : (digitChar (s / 10) = '.' ∨ digitChar (s / 10) = ',') = False :=
    digitChar_ne_frac _ (by omega)
  have t1 : (digitChar (h / 10) = '+' ∨ digitChar (h / 10) = '-' ∨ digitChar (h / 10) = 'Z')
      = False := digitChar_ne_tz _ (by omega)
  have t2 : (digitChar (h % 10) = '+' ∨ digitChar (h % 10) = '-' ∨ digitChar (h % 10) = 'Z')
      = False := digitChar_ne_tz _ (by omega)
  have t3 : (digitChar (mi / 10) = '+' ∨ digitChar (mi / 10) = '-' ∨ digitChar (mi / 10) = 'Z')
      = False := digitChar_ne_tz _ (by omega)
  have t4 : (digitChar (mi % 10) = '+' ∨ digitChar (mi % 10) = '-' ∨ digitChar (mi % 10) = 'Z')
      = False := digitChar_ne_tz _ (by omega)
  have t5 : (digitChar (s / 10) = '+' ∨ digitChar (s / 10) = '-' ∨ digitChar (s / 10) = 'Z')
      = False := digitChar_ne_tz _ (by omega)
  have t6 : (digitChar (s % 10) = '+' ∨ digitChar (s % 10) = '-' ∨ digitChar (s % 10) = 'Z')
      = False := digitChar_ne_tz _ (by omega)
  have vy : toN4 (digitChar (y / 1000)) (digitChar (y / 100 % 10)) (digitChar (y / 10 % 10))
      (digitChar (y % 10)) = y := by
    unfold toN4
    rw [charVal_digitChar _ (by omega), charVal_digitChar _ (by omega),
      charVal_digitChar _ (by omega), charVal_digitChar _ (by omega)]
    omega
  have vmo : toN2 (digitChar (mo / 10)) (digitChar (mo % 10)) = mo := by
    unfold toN2
    rw [charVal_digitChar _ (by omega), charVal_digitChar _ (by omega)]
    omega
  have vd : toN2 (digitChar (d / 10)) (digitChar (d % 10)) = d := by
    unfold toN2
    rw [charVal_digitChar _ (by omega), charVal_digitChar _ (by omega)]
    omega
  have vh : toN2 (digitChar (h / 10)) (digitChar (h % 10)) = h := by
    unfold toN2
    rw [charVal_digitChar _ (by omega), charVal_digitChar _ (by omega)]
    omega
  have vmi : toN2 (digitChar (mi / 10)) (digitChar (mi % 10)) = mi := by
    unfold toN2
    rw [charVal_digitChar _ (by omega), charVal_digitChar _ (by omega)]
    omega
  have vs : toN2 (digitChar (s / 10)) (digitChar (s % 10)) = s := by
    unfold toN2
    rw [charVal_digitChar _ (by omega), charVal_digitChar _ (by omega)]
    omega
  set L : Str := [digitChar (y / 1000), digitChar (y / 100 % 10), digitChar (y / 10 % 10),
      digitChar (y % 10), digitChar (mo / 10), digitChar (mo % 10), digitChar (d / 10),
      digitChar (d % 10), 'T', digitChar (h / 10), digitChar (h % 10), digitChar (mi / 10),
      digitChar (mi % 10), digitChar (s / 10), digitChar (s % 10)] with hL
  have hlen : L.length = 15 := by rw [hL]; rfl
  have e0 : atD L 0 = digitChar (y / 1000) := by rw [hL]; rfl
  have e1 : atD L 1 = digitChar (y / 100 % 10) := by rw [hL]; rfl
  have e2 : atD L 2 = digitChar (y / 10 % 10) := by rw [hL]; rfl
  have e3 : atD L 3 = digitChar (y % 10) := by rw [hL]; rfl
  have e4 : atD L 4 = digitChar (mo / 10) := by rw [hL]; rfl
  have e5 : atD L 5 = digitChar (mo % 10) := by rw [hL]; rfl
  have e6 : atD L 6 = digitChar (d / 10) := by rw [hL]; rfl
  have e7 : atD L 7 = digitChar (d % 10) := by rw [hL]; rfl
  have hsep : findSep L = some 8 := by
    unfold findSep
    rw [hlen, e4]
    simp [n1, nW]
  have hy4 : read4y L = some y := by
    unfold read4y
    rw [e0, e1, e2, e3]
    simp [g1, g2, g3, g4, vy]
  have hdate : parse_isoformat_date L 8 = some (y, mo, d) := by
    unfold parse_isoformat_date
    rw [hy4]
    simp only [pairAt]
    simp [e4, e5, e6, e7, n1, nW, g5, g6, g7, g8, vmo, vd]
  set T : Str := [digitChar (h / 10), digitChar (h % 10), digitChar (mi / 10),
      digitChar (mi % 10), digitChar (s / 10), digitChar (s % 10)] with hT
  have hdrop : L.drop 9 = T := by rw [hL, hT]; rfl
  have hTlen : T.length = 6 := by rw [hT]; rfl
  have f0 : atD T 0 = digitChar (h / 10) := by rw [hT]; rfl
  have f1 : atD T 1 = digitChar (h % 10) := by rw [hT]; rfl
  have f2 : atD T 2 = digitChar (mi / 10) := by rw [hT]; rfl
  have f3 : atD T 3 = digitChar (mi % 10) := by rw [hT]; rfl
  have f4 : atD T 4 = digitChar (s / 10) := by rw [hT]; rfl
  have f5 : atD T 5 = digitChar (s % 10) := by rw [hT]; rfl
  have f6 : atD T 6 = '\x00' := by rw [hT]; rfl
  have htz : tzScan T = 6 := by
    rw [hT]
    simp [tzScan, t1, t2, t3, t4, t5, t6]
  have hcore : hms_ff_hour T 6 0 = some (h, mi, s, 0, true) := by
    unfold hms_ff_hour hms_ff_min hms_ff_sec
    simp only [pairAt, f0, f1, f2, f3, f4, f5, f6, g9, g10, g11, g12, g13, g14, vh, vmi, vs]
    simp [n2, n3, nf1, nf2]
  have htime : parse_isoformat_time T = some (h, mi, s, 0) := by
    unfold parse_isoformat_time
    rw [htz, hcore, hTlen]
    simp
  simp [fromiso, hlen, hsep, hdate, hdrop, htime, datetime_check,
    hy1, hy2, hm1, hm2, hd1, hd2, hh, hmi, hs]

/-- Rendering a valid value and parsing the result succeeds with the
microseconds dropped. -/
theorem parse1_render (dt : PyDateTime) (hv : validDT dt) :
    parse1 (dt_to_ics dt) = .ok (zeroMicro dt) := by
  obtain ⟨y, mo, d, h, mi, s, us⟩ := dt
  obtain ⟨hy1, hy2, hm1, hm2, hd1, hd2, hh, hmi, hs⟩ := hv
  dsimp only at hy1 hy2 hm1 hm2 hd1 hd2 hh hmi hs
  have hd31 : d ≤ 31 := le_trans hd2 (daysInMonth_le31 y mo)
  have hwrap : findWrapper (dt_to_ics ⟨y, mo, d, h, mi, s, us⟩) = none := by
    apply findWrapper_none
    intro c hc
    simp only [dt_to_ics, pad4, pad2, List.cons_append, List.nil_append, List.mem_cons,
      List.not_mem_nil, or_false] at hc
    rcases hc with rfl | rfl | rfl | rfl | rfl | rfl | rfl | rfl | rfl | rfl | rfl | rfl |
      rfl | rfl | rfl | rfl
    all_goals first
      | decide
      | (apply digitChar_ne_brace; omega)
  have hnz : ∀ c ∈ (pad4 y ++ pad2 mo ++ pad2 d ++ ['T'] ++ pad2 h ++ pad2 mi ++ pad2 s),
      (fun c => c != 'Z') c = true := by
    intro c hc
    simp only [pad4, pad2, List.cons_append, List.nil_append, List.mem_cons,
      List.not_mem_nil, or_false] at hc
    rcases hc with rfl | rfl | rfl | rfl | rfl | rfl | rfl | rfl | rfl | rfl | rfl | rfl |
      rfl | rfl | rfl
    all_goals first
      | decide
      | (apply digitChar_bne_Z; omega)
  have hrz : removeZ (dt_to_ics ⟨y, mo, d, h, mi, s, us⟩) =
      [digitChar (y / 1000), digitChar (y / 100 % 10), digitChar (y / 10 % 10),
       digitChar (y % 10), digitChar (mo / 10), digitChar (mo % 10), digitChar (d / 10),
       digitChar (d % 10), 'T', digitChar (h / 10), digitChar (h % 10), digitChar (mi / 10),
       digitChar (mi % 10), digitChar (s / 10), digitChar (s % 10)] := by
    show removeZ ((pad4 y ++ pad2 mo ++ pad2 d ++ ['T'] ++ pad2 h ++ pad2 mi ++ pad2 s)
      ++ ['Z']) = _
    unfold removeZ
    rw [List.filter_append, List.filter_eq_self.mpr hnz]
    simp [pad4, pad2]
  simp only [parse1, hwrap, hrz,
    fromiso_basic15 y mo d h mi s hy1 hy2 hm1 hm2 hd1 hd2 hh hmi hs]
  rfl

/-- Claim C7: for a wrapped datetime that parses, rendering in basic UTC
format and re-parsing yields a value whose re-rendering is the identical
string, and every further parse-render round-trip is the identity on that
string (idempotent after the first normalization, which only drops
microseconds). -/
theorem parse_render_fixedpoint (s iso : Str) (dt : PyDateTime)
    (hw : findWrapper s = some iso) (hp : parse1 s = .ok dt) :
    parse1 (dt_to_ics dt) = .ok (zeroMicro dt)
    ∧ dt_to_ics (zeroMicro dt) = dt_to_ics dt
    ∧ (parse1 (dt_to_ics dt)).map dt_to_ics = .ok (dt_to_ics dt) := by
  have hv : validDT dt := by
    simp only [parse1, hw] at hp
    cases hf : fromiso (strip000 iso) with
    | none =>
      rw [hf] at hp
      cases hp
    | some dt2 =>
      rw [hf] at hp
      cases hp
      exact fromiso_valid _ _ hf
  have h1 := parse1_render dt hv
  refine ⟨h1, ?_, ?_⟩
  · cases dt
    rfl
  · rw [h1]
    show Except.ok (dt_to_ics (zeroMicro dt)) = Except.ok (dt_to_ics dt)
    cases dt
    rfl

/-- Witness for C7 at the sample wrapped datetime. -/
theorem parse_render_fixedpoint_witness :
    parse1 (dt_to_ics ⟨2022, 7, 14, 19, 0, 0, 0⟩) =
        .ok (zeroMicro ⟨2022, 7, 14, 19, 0, 0, 0⟩)
    ∧ dt_to_ics (zeroMicro ⟨2022, 7, 14, 19, 0, 0, 0⟩) = dt_to_ics ⟨2022, 7, 14, 19, 0, 0, 0⟩
    ∧ (parse1 (dt_to_ics ⟨2022, 7, 14, 19, 0, 0, 0⟩)).map dt_to_ics =
        .ok (dt_to_ics ⟨2022, 7, 14, 19, 0, 0, 0⟩) :=
  parse_render_fixedpoint (str "\x7butcdatetime:U2022-07-14T19:00:00.000\x7d")
    (str "2022-07-14T19:00:00.000") ⟨2022, 7, 14, 19, 0, 0, 0⟩ (by decide) (by decide)

theorem isOkE_ok {α : Type} (e : Except Str α) (h : isOkE e = true) : ∃ v, e = .ok v := by
  cases e with
  | ok v => exact ⟨v, rfl⟩
  | error m => simp [isOkE] at h

theorem eventParses_ok_parts (ev : EventEl)
    (p : Option PyDateTime × Option PyDateTime × Option Str)
    (hp : eventParses ev = .ok p) :
    optParseTruthy ev.start_date = .ok p.1 ∧ optParseTruthy ev.end_date = .ok p.2.1 ∧
      build_rrule ev.recurrence = .ok p.2.2 := by
  unfold eventParses at hp
  cases hs : optParseTruthy ev.start_date with
  | error e =>
    rw [hs] at hp
    cases hp
  | ok sdt =>
    simp only [hs] at hp
    cases he : optParseTruthy ev.end_date with
    | error e =>
      rw [he] at hp
      cases hp
    | ok edt =>
      simp only [he] at hp
      cases hr : build_rrule ev.recurrence with
      | error e =>
        rw [hr] at hp
        cases hp
      | ok rr =>
        simp only [hr] at hp
        cases hp
        exact ⟨rfl, rfl, rfl⟩

/-- Claim C9: a lowercased `is_allday_event` value other than `true`
(including absence and arbitrary strings) renders DTSTART/DTEND as full
timestamps; the date-only rendering occurs exactly when the lowercased value
equals `true`; and the attribute value never affects whether the event
errors. -/
theorem allday_gate (ev : EventEl) (now : PyDateTime) (ls : List Str)
    (hok : eventLines ev now = .ok ls) :
    (alldayFlag ev.is_allday_event = false →
      (∀ dt, optParseTruthy ev.start_date = .ok (some dt) →
        (str "DTSTART:" ++ dt_to_ics dt) ∈ ls)
      ∧ (∀ dt, optParseTruthy ev.end_date = .ok (some dt) →
        (str "DTEND:" ++ dt_to_ics dt) ∈ ls))
    ∧ (alldayFlag ev.is_allday_event = true →
      (∀ dt, optParseTruthy ev.start_date = .ok (some dt) →
        (str "DTSTART;VALUE=DATE:" ++ dtDate dt) ∈ ls))
    ∧ (∀ a : Option Str, isOkE (eventLines { ev with is_allday_event := a } now) = true)
    ∧ (alldayFlag ev.is_allday_event = true ↔
        asciiLower (ev.is_allday_event.getD (str "False")) = str "true") := by
  unfold eventLines at hok
  cases hp : eventParses ev with
  | error e =>
    rw [hp] at hok
    cases hok
  | ok p =>
    obtain ⟨sdt, edt, rr⟩ := p
    simp only [hp, Except.map] at hok
    cases hok
    obtain ⟨hs, he, hr⟩ := eventParses_ok_parts ev (sdt, edt, rr) hp
    dsimp only at hs he hr
    refine ⟨?_, ?_, ?_, ?_⟩
    · intro hflag
      constructor
      · intro dt hdt
        rw [hdt] at hs
        injection hs with h2
        subst h2
        simp [eventBody, hflag]
      · intro dt hdt
        rw [hdt] at he
        injection he with h2
        subst h2
        simp [eventBody, hflag]
    · intro hflag dt hdt
      rw [hdt] at hs
      injection hs with h2
      subst h2
      simp [eventBody, hflag]
    · intro a
      have hsame : eventParses { ev with is_allday_event := a } = eventParses ev := rfl
      unfold eventLines
      rw [hsame, hp]
      rfl
    · exact ⟨fun h => by simpa [alldayFlag] using h, fun h => by simp [alldayFlag, h]⟩

/-- Witness for C9: the attribute value `yes` renders a timed DTSTART. -/
theorem allday_gate_witness :
    (str "DTSTART:" ++ dt_to_ics ⟨2022, 7, 14, 19, 0, 0, 0⟩) ∈
      eventBody ⟨some (str "7"), some (str "yes"), none, none,
        some (str "\x7butcdatetime:U2022-07-14T19:00:00.000\x7d"), none, none, none⟩
        ⟨2024, 1, 1, 0, 0, 0, 0⟩ (some ⟨2022, 7, 14, 19, 0, 0, 0⟩) none none :=
  (((allday_gate ⟨some (str "7"), some (str "yes"), none, none,
        some (str "\x7butcdatetime:U2022-07-14T19:00:00.000\x7d"), none, none, none⟩
      ⟨2024, 1, 1, 0, 0, 0, 0⟩ _ (by decide)).1 (by decide)).1)
    ⟨2022, 7, 14, 19, 0, 0, 0⟩ (by decide)

theorem parse1_bothFail (s : Str) (hb : bothFail s) : parse1 s = .error (unrecMsg s) := by
  simp only [parse1, hb.1, hb.2]

theorem optParseTruthy_bothFail (s : Str) (hne : s ≠ []) (hb : bothFail s) :
    optParseTruthy (some s) = .error (unrecMsg s) := by
  simp only [optParseTruthy, if_neg hne, parse1_bothFail s hb]
  rfl

theorem eventParses_bothFail (ev : EventEl) (s : Str) (hev : evFirstBothFail ev s) :
    eventParses ev = .error (unrecMsg s) := by
  rcases hev with ⟨hs, hne, hb⟩ | ⟨hok1, hs, hne, hb⟩ |
    ⟨hok1, hok2, ⟨rec, t, hrec, ht, hcap, hor⟩, hne, hb⟩
  · unfold eventParses
    rw [hs, optParseTruthy_bothFail s hne hb]
  · obtain ⟨sdt, hsdt⟩ := isOkE_ok _ hok1
    unfold eventParses
    simp only [hsdt, hs, optParseTruthy_bothFail s hne hb]
  · obtain ⟨sdt, hsdt⟩ := isOkE_ok _ hok1
    obtain ⟨edt, hedt⟩ := isOkE_ok _ hok2
    have huntil : untilExcept rec = .error (unrecMsg s) := by
      simp only [untilExcept, hor, if_neg hne, parse1_bothFail s hb]
      rfl
    unfold eventParses
    simp only [hsdt, hedt, build_rrule, hrec, ht, if_pos hcap, huntil]

theorem eventsLines_err (pre : List EventEl) (ev : EventEl) (post : List EventEl)
    (now : PyDateTime) (m : Str)
    (hpre : ∀ p ∈ pre, isOkE (eventLines p now) = true)
    (hev : eventLines ev now = .error m) :
    eventsLines (pre ++ ev :: post) now = .error m := by
  induction pre with
  | nil =>
    simp only [List.nil_append, eventsLines, hev]
  | cons p ps ih =>
    obtain ⟨lp, hlp⟩ := isOkE_ok _ (hpre p (List.mem_cons_self p ps))
    show eventsLines (p :: (ps ++ ev :: post)) now = Except.error m
    simp only [eventsLines, hlp,
      ih (fun q hq => hpre q (List.mem_cons_of_mem p hq))]

/-- Claim C2 (amended): whenever some event carries a datetime string that
the engine actually parses (a nonempty start or end, or a truthy until date
of a weekly recurrence) and that string matches neither the wrapper format
nor plain ISO, and it is the first datetime failure in processing order, the
whole conversion returns the error `Unrecognized datetime format: <s>` naming
the offending string; the error propagates past the per-event loop and no
document value is produced, so the destination file is never written. -/
theorem datetime_failure_aborts (pre : List EventEl) (ev : EventEl) (post : List EventEl)
    (now : PyDateTime) (s : Str)
    (hpre : ∀ p ∈ pre, isOkE (eventLines p now) = true)
    (hev : evFirstBothFail ev s) :
    mxl_to_ics (pre ++ ev :: post) now = .error (unrecMsg s)
    ∧ ∀ doc, mxl_to_ics (pre ++ ev :: post) now ≠ .ok doc := by
  have hlines : eventLines ev now = .error (unrecMsg s) := by
    unfold eventLines
    rw [eventParses_bothFail ev s hev]
    rfl
  have hall := eventsLines_err pre ev post now (unrecMsg s) hpre hlines
  constructor
  · unfold mxl_to_ics calLines
    rw [hall]
    rfl
  · intro doc hdoc
    unfold mxl_to_ics calLines at hdoc
    rw [hall] at hdoc
    cases hdoc

/-- Counterexample to C2 as stated: an until date that matches neither format
sits on a non-weekly recurrence, so it is never parsed; the conversion
succeeds and produces a document. -/
theorem datetime_failure_aborts_counterexample :
    bothFail (str "not-a-date")
    ∧ isOkE (mxl_to_ics [⟨some (str "7"), none, none, none, none, none, none,
        some ⟨some (str "Monthly"), none, some (str "not-a-date"), none, none⟩⟩]
        ⟨2024, 1, 1, 0, 0, 0, 0⟩) = true :=
  ⟨⟨by decide, by decide⟩, by decide⟩

/-- Witness for C2 (amended) at a single event whose start date is
`not-a-date`. -/
theorem datetime_failure_aborts_witness :
    mxl_to_ics [⟨some (str "7"), none, none, none, some (str "not-a-date"), none, none, none⟩]
      ⟨2024, 1, 1, 0, 0, 0, 0⟩ = .error (unrecMsg (str "not-a-date")) :=
  (datetime_failure_aborts []
    ⟨some (str "7"), none, none, none, some (str "not-a-date"), none, none, none⟩ []
    ⟨2024, 1, 1, 0, 0, 0, 0⟩ (str "not-a-date")
    (fun p hp => absurd hp (List.not_mem_nil p))
    (Or.inl ⟨rfl, by decide, by decide, by decide⟩)).1

theorem startsWith_self_append (p z : Str) : startsWith (p ++ z) p = true := by
  induction p with
  | nil => cases z <;> rfl
  | cons c cs ih => simp [startsWith, ih]

theorem endsWith_append (a p : Str) : endsWith (a ++ p) p = true := by
  unfold endsWith
  rw [List.reverse_append]
  exact startsWith_self_append p.reverse a.reverse

/-- Counterexample to C3 as stated: `convert` does not pass its lines through
the fold operation before the final CRLF join; on an event with an 80
character title its output differs from the fold-then-join assembly. -/
theorem convert_does_not_fold :
    convert [⟨some (str "7"), none, some (List.replicate 80 'a'), none, none, none, none, none⟩]
      ⟨2024, 1, 1, 0, 0, 0, 0⟩ ≠
    (convCalLines [⟨some (str "7"), none, some (List.replicate 80 'a'), none, none, none, none,
      none⟩] ⟨2024, 1, 1, 0, 0, 0, 0⟩).map
      (fun ls => List.intercalate (str "\r\n") (ls.map fold_ics_line) ++ str "\r\n") := by
  decide

/-- Claim C3 (amended): `mxl_to_ics` passes every assembled line, the
structural BEGIN/END lines included, through the fold operation before the
final CRLF join and its document ends with a trailing CRLF; `convert` joins
its lines with CRLF and also appends a trailing CRLF, but applies no folding
at the final join. -/
theorem document_join_and_fold (evs : List EventEl) (now : PyDateTime) :
    (∀ out, mxl_to_ics evs now = .ok out →
      (∃ ls, calLines evs now = .ok ls
        ∧ out = List.intercalate (str "\r\n") (ls.map fold_ics_line) ++ str "\r\n")
      ∧ endsWith out (str "\r\n") = true)
    ∧ (∀ out, convert evs now = .ok out →
      (∃ ls, convCalLines evs now = .ok ls
        ∧ out = List.intercalate (str "\r\n") ls ++ str "\r\n")
      ∧ endsWith out (str "\r\n") = true) := by
  constructor
  · intro out hout
    unfold mxl_to_ics at hout
    cases hcal : calLines evs now with
    | error e =>
      rw [hcal] at hout
      cases hout
    | ok ls =>
      rw [hcal] at hout
      simp only [Except.map] at hout
      cases hout
      exact ⟨⟨ls, rfl, rfl⟩, endsWith_append _ _⟩
  · intro out hout
    unfold convert at hout
    cases hcal : convCalLines evs now with
    | error e =>
      rw [hcal] at hout
      cases hout
    | ok ls =>
      rw [hcal] at hout
      simp only [Except.map] at hout
      cases hout
      exact ⟨⟨ls, rfl, rfl⟩, endsWith_append _ _⟩

/-- Witness for C3 (amended) on the empty event list. -/
theorem document_join_and_fold_witness :
    endsWith
      (List.intercalate (str "\r\n") ((calHeader ++ [] ++ [str "END:VCALENDAR"]).map
        fold_ics_line) ++ str "\r\n") (str "\r\n") = true :=
  ((document_join_and_fold [] ⟨2024, 1, 1, 0, 0, 0, 0⟩).1
    (List.intercalate (str "\r\n") ((calHeader ++ [] ++ [str "END:VCALENDAR"]).map
      fold_ics_line) ++ str "\r\n") (by decide)).2
